import Mathlib

/-!
Verification of the Cash-Up reward ledger and anti-fraud engine
(src/server/app/main.py) against its natural-language specification.

The Python source is shallowly embedded below: every operation becomes a
pure Lean function from an explicit state to an error-or-state result,
machine integers become `Int`/`Nat`, SQL rows become lists of structures,
and the float-valued jackpot contribution rate becomes `ℚ`.  Clock reads
(`datetime.utcnow`, `get_today`, the ISO week key, `time.time_ns`) are
passed in as explicit parameters so that an adversarial scheduler can pick
them; the great-circle distance utility (declared out of scope by the
spec) is a function parameter of the environment.  The weighted random
winner selection of `draw_jackpot` is modelled by an explicit pick index.
-/

namespace CashUp

/-- Photo status column: `PENDING` or `ACTIVE` (main.py:40-41). -/
inductive PhotoStatus
  | pending
  | active
deriving DecidableEq, Repr

/-- The typed failures raised through `http_error` / `HTTPException`.
`serverCrash` stands for an exception escaping the handler (the
uncaught `TypeError` of an image-hash size mismatch). -/
inductive Err
  | notFound
  | outsideGeofence
  | rateLimited
  | duplicateImage
  | serverCrash
  | capExceeded
  | budgetExhausted
  | nothingToActivate
  | insufficientBalance
  | noParticipants
  | badRequest
deriving DecidableEq, Repr

/-- Festival row (columns read by main.py). -/
structure Festival where
  id : String
  budget : Int
  per_user_daily_cap : Int
  per_photo_point : Int
  center_lat : Option ℚ := none
  center_lng : Option ℚ := none
  radius_meters : Option Int := none
deriving DecidableEq, Repr

/-- TrashBin row (columns read by `scan_bin`). -/
structure TrashBinR where
  id : String
  festival_id : String
  code : String
deriving DecidableEq, Repr

/-- TrashPhoto row.  `created_at` is an abstract UTC timestamp in
seconds.  The detection metadata is advisory only (never read by the
engine) and is omitted. -/
structure Photo where
  id : Nat
  user_id : String
  festival_id : String
  hash : String
  status : PhotoStatus
  points : Int
  created_at : Nat
deriving DecidableEq, Repr

/-- UserDailySummary row, keyed by (user, festival, date). -/
structure Summary where
  user_id : String
  festival_id : String
  date : String
  total_pending : Int := 0
  total_active : Int := 0
  total_consumed : Int := 0
deriving DecidableEq, Repr

/-- Coupon row. -/
structure CouponR where
  user_id : String
  festival_id : String
  shop_name : String
  amount : Int
  code : String
  status : String := "ISSUED"
deriving DecidableEq, Repr

/-- JackpotPool row. -/
structure Pool where
  festival_id : String
  current_amount : Int
  seed_amount : Int
  contribution_rate : ℚ
  last_winner_id : Option String := none
  last_draw_date : Option String := none
deriving DecidableEq, Repr

/-- JackpotEntry row, keyed by (user, festival, week key). -/
structure EntryR where
  user_id : String
  festival_id : String
  week_key : String
  entry_count : Nat
deriving DecidableEq, Repr

/-- JackpotWinner audit row. -/
structure WinnerR where
  user_id : String
  festival_id : String
  week_key : String
  amount : Int
deriving DecidableEq, Repr

/-- BinScan audit row. -/
structure BinScanR where
  festival_id : String
  bin_id : String
  user_id : String
deriving DecidableEq, Repr

/-- The environment: rows the four audited operations never write
(festivals, users, bins), the great-circle distance utility (out of
scope per the spec, a dependency only), and the JackpotPool column
defaults.  The defaults are fields here because models.py is not under
src; the contribution rate default is the festival-level configured
fraction of spec section 4.5. -/
structure Env where
  festivals : List Festival
  users : List String
  bins : List TrashBinR
  dist : ℚ → ℚ → ℚ → ℚ → ℚ
  pool_default_current : Int := 0
  pool_default_seed : Int := 0
  pool_default_rate : ℚ := 0

/-- The persistent store owned by the engine. -/
structure St where
  photos : List Photo := []
  summaries : List Summary := []
  coupons : List CouponR := []
  pools : List Pool := []
  entries : List EntryR := []
  winners : List WinnerR := []
  scans : List BinScanR := []
  next_photo_id : Nat := 0
deriving DecidableEq, Repr

/-- Replace the first element satisfying `p` (SQLAlchemy mutates the one
row object returned by a keyed query). -/
def updateFirst (p : α → Bool) (f : α → α) : List α → List α
  | [] => []
  | x :: xs => if p x then f x :: xs else x :: updateFirst p f xs

/-- `db.get(Festival, festival_id)`. -/
def getFestival (env : Env) (fid : String) : Option Festival :=
  env.festivals.find? (fun f => f.id == fid)

/-- Key predicate of the UserDailySummary queries. -/
def summaryKey (uid fid date : String) (s : Summary) : Bool :=
  s.user_id == uid && s.festival_id == fid && s.date == date

/-- The keyed summary query of `ensure_summary` / `issue_coupon` /
`draw_jackpot`. -/
def findSummary (st : St) (uid fid date : String) : Option Summary :=
  st.summaries.find? (summaryKey uid fid date)

/-- `ensure_summary` (main.py:97-116): return the existing row or create
a zero row.  The creation is committed on the spot (`db.commit()`), so
it survives a later gate failure. -/
def ensure_summary (st : St) (uid fid date : String) : Summary × St :=
  match findSummary st uid fid date with
  | some s => (s, st)
  | none =>
    let s : Summary := { user_id := uid, festival_id := fid, date := date }
    (s, { st with summaries := st.summaries ++ [s] })

/-- `total_pending + total_active + total_consumed` of one summary. -/
def summaryTotal (s : Summary) : Int :=
  s.total_pending + s.total_active + s.total_consumed

/-- Sum of the points of a festival's TrashPhoto rows. -/
def photoSum (l : List Photo) (fid : String) : Int :=
  ((l.filter (fun p => p.festival_id == fid)).map (fun p => p.points)).sum

/-- Sum of the amounts of a festival's Coupon rows. -/
def couponSum (l : List CouponR) (fid : String) : Int :=
  ((l.filter (fun c => c.festival_id == fid)).map (fun c => c.amount)).sum

/-- `get_budget_usage` (main.py:119-130): photo points plus coupon
amounts of the festival, computed fresh. -/
def get_budget_usage (st : St) (fid : String) : Int :=
  photoSum st.photos fid + couponSum st.coupons fid

/-- Python `int()` on a rational value: truncation toward zero. -/
def pyInt (q : ℚ) : Int := if 0 ≤ q then ⌊q⌋ else -⌊-q⌋

/-- `hamming_distance` (main.py:139-142): strings of unequal length are
maximally distant, otherwise count character mismatches. -/
def hamming_distance (a b : String) : Nat :=
  if a.length ≠ b.length then max a.length b.length
  else ((a.toList.zip b.toList).filter (fun c => c.1 ≠ c.2)).length

/-- `re.fullmatch(r"[0-9a-fA-F]+", value)` on one character. -/
def isHexChar (c : Char) : Bool :=
  (('0' ≤ c) && (c ≤ '9')) || (('a' ≤ c) && (c ≤ 'f')) || (('A' ≤ c) && (c ≤ 'F'))

/-- Value of one hexadecimal character. -/
def hexCharVal (c : Char) : Nat :=
  if ('0' ≤ c) && (c ≤ '9') then c.toNat - '0'.toNat
  else if ('a' ≤ c) && (c ≤ 'f') then c.toNat - 'a'.toNat + 10
  else c.toNat - 'A'.toNat + 10

/-- Python `int(s, 16)`. -/
def hexToNat (s : String) : Nat :=
  s.toList.foldl (fun acc c => 16 * acc + hexCharVal c) 0

/-- Python `int(s, 2)`. -/
def binToNat (s : String) : Nat :=
  s.toList.foldl (fun acc c => 2 * acc + (if c == '1' then 1 else 0)) 0

/-- Big-endian bit vector of `n`, zero padded to `width` bits: the
flattened boolean hash matrix `imagehash.hex_to_hash` builds. -/
def natBits (n width : Nat) : List Bool :=
  (List.range width).map (fun i => n.testBit (width - 1 - i))

/-- `hash_size ** 2 == len(hexstr) * 4` with
`hash_size = int(numpy.sqrt(len(hexstr) * 4))` holds exactly when the
bit count is a perfect square; stated as a bounded search so it
evaluates inside the kernel. -/
def isPerfectSquare (n : Nat) : Bool :=
  (List.range (n + 1)).any (fun m => m * m == n)

/-- `imagehash.hex_to_hash`: the bit count must be a perfect square,
else the raised `AssertionError` is caught by `parse_hash` and yields
`none`. -/
def hex_to_hash (s : String) : Option (List Bool) :=
  let nbits := 4 * s.length
  if isPerfectSquare nbits then some (natBits (hexToNat s) nbits)
  else none

/-- `parse_hash` (main.py:151-163): empty strings do not parse; a string
of hex characters parses through `hex_to_hash`; a 64-character binary
string is converted to 16 hex characters first (this branch is shadowed
by the hex branch, since 0 and 1 are hex characters); everything else is
unparseable. -/
def parse_hash (v : String) : Option (List Bool) :=
  if v == "" then none
  else if v.toList.all isHexChar then hex_to_hash v
  else if v.length == 64 && v.toList.all (fun c => c == '0' || c == '1') then
    natBits (binToNat v) 64
  else none

/-- `imagehash.ImageHash.__sub__`: bit hashes of unequal size raise a
`TypeError` (modelled as `none`, an uncaught exception in the caller);
otherwise the number of differing bit positions. -/
def hashSub (a b : List Bool) : Option Nat :=
  if a.length == b.length then
    some (((a.zip b).filter (fun c => c.1 ≠ c.2)).length)
  else none

/-- One dedup comparison of `upload_photo` (main.py:442-447): the
structured distance when both the stored and the new hash parse,
otherwise the raw character-wise fallback.  `none` is the uncaught
size-mismatch exception. -/
def dedupDistance (stored new : String) : Option Nat :=
  match parse_hash stored, parse_hash new with
  | some a, some b => hashSub a b
  | _, _ => some (hamming_distance stored new)

/-- The dedup loop of `upload_photo` (main.py:442-450) over the stored
hashes of the 20 most recent photos: the first distance of at most 5
rejects with `DuplicateImage`. -/
def dedupScan (new : String) : List String → Option Err
  | [] => none
  | h :: rest =>
    match dedupDistance h new with
    | none => some Err.serverCrash
    | some d => if d ≤ 5 then some Err.duplicateImage else dedupScan new rest

/-- `festival.radius_meters or 1500`: Python `or` replaces both `None`
and `0` by the 1500 meter default. -/
def effectiveRadius (f : Festival) : Int :=
  match f.radius_meters with
  | none => 1500
  | some r => if r == 0 then 1500 else r

/-- `is_inside_festival` (main.py:85-94): without a configured center
the gate passes; with a center, missing coordinates fail; otherwise the
great-circle distance is compared against the effective radius. -/
def is_inside_festival (dist : ℚ → ℚ → ℚ → ℚ → ℚ) (f : Festival)
    (lat lng : Option ℚ) : Bool :=
  match f.center_lat, f.center_lng with
  | some clat, some clng =>
    match lat, lng with
    | some la, some ln => decide (dist la ln clat clng ≤ (effectiveRadius f : ℚ))
    | _, _ => false
  | _, _ => true

/-- Stable sort newest first (`order_by(TrashPhoto.created_at.desc())`). -/
def sortDesc (l : List Photo) : List Photo :=
  l.insertionSort (fun p q => q.created_at ≤ p.created_at)

/-- Stable sort oldest first (`order_by(TrashPhoto.created_at.asc())`). -/
def sortAsc (l : List Photo) : List Photo :=
  l.insertionSort (fun p q => p.created_at ≤ q.created_at)

/-- The rate gate count (main.py:411-420): photos of the user created in
the trailing 60 seconds, across all festivals. -/
def rateCount (st : St) (uid : String) (now : Nat) : Nat :=
  (st.photos.filter (fun p => p.user_id == uid && decide (now - 60 ≤ p.created_at))).length

/-- Hashes of the user's 20 most recent photos across all festivals
(main.py:432-441). -/
def recentHashes (st : St) (uid : String) : List String :=
  ((sortDesc (st.photos.filter (fun p => p.user_id == uid))).take 20).map
    (fun p => p.hash)

/-- Fresh JackpotPool row created by `upload_photo` when the festival
has none: all columns take their model defaults (models.py is not under
src, so the defaults live in the environment). -/
def newPool (env : Env) (fid : String) : Pool :=
  { festival_id := fid, current_amount := env.pool_default_current,
    seed_amount := env.pool_default_seed, contribution_rate := env.pool_default_rate }

/-- The pool the contribution of `upload_photo` lands in: the existing
row, or the fresh default row. -/
def poolPre (env : Env) (st : St) (fid : String) : Pool :=
  (st.pools.find? (fun pl => pl.festival_id == fid)).getD (newPool env fid)

/-- `upload_photo` (main.py:386-527).  Inputs: the resolved user, the
festival, optional coordinates, the perceptual hash computed from the
uploaded image, the UTC timestamp `now` (seconds), the KST date `today`
and the ISO week key.  Returns the error, if any, together with the
committed state: note that `ensure_summary` commits a created summary
row even when a later gate aborts the request. -/
def upload_photo (env : Env) (fid uid : String) (lat lng : Option ℚ)
    (imageHash : String) (now : Nat) (today weekKey : String) (st : St) :
    Option Err × St :=
  if ¬ env.users.contains uid then (some Err.notFound, st)
  else match getFestival env fid with
  | none => (some Err.notFound, st)
  | some fest =>
    if ¬ is_inside_festival env.dist fest lat lng then (some Err.outsideGeofence, st)
    else if 5 ≤ rateCount st uid now then (some Err.rateLimited, st)
    else match dedupScan imageHash (recentHashes st uid) with
    | some e => (some e, st)
    | none =>
      let es := ensure_summary st uid fid today
      let summary := es.1
      let st1 := es.2
      if fest.per_user_daily_cap ≤ summaryTotal summary then (some Err.capExceeded, st1)
      else if fest.budget < get_budget_usage st1 fid + fest.per_photo_point then
        (some Err.budgetExhausted, st1)
      else
        let photo : Photo :=
          { id := st1.next_photo_id, user_id := uid, festival_id := fid,
            hash := imageHash, status := PhotoStatus.pending,
            points := fest.per_photo_point, created_at := now }
        let st2 : St :=
          { st1 with
            photos := st1.photos ++ [photo],
            next_photo_id := st1.next_photo_id + 1,
            summaries := updateFirst (summaryKey uid fid today)
              (fun s => { s with total_pending := s.total_pending + fest.per_photo_point })
              st1.summaries }
        let pl := poolPre env st2 fid
        let st3 : St :=
          match st2.pools.find? (fun q => q.festival_id == fid) with
          | some _ => st2
          | none => { st2 with pools := st2.pools ++ [newPool env fid] }
        let contribution := pyInt ((fest.per_photo_point : ℚ) * pl.contribution_rate)
        let st4 : St :=
          { st3 with
            pools := updateFirst (fun q => q.festival_id == fid)
              (fun q => { q with current_amount := q.current_amount + contribution })
              st3.pools }
        let st5 : St :=
          match st4.entries.find? (fun e =>
              e.user_id == uid && e.festival_id == fid && e.week_key == weekKey) with
          | some _ =>
            { st4 with
              entries := updateFirst (fun e =>
                  e.user_id == uid && e.festival_id == fid && e.week_key == weekKey)
                (fun e => { e with entry_count := e.entry_count + 1 }) st4.entries }
          | none =>
            { st4 with
              entries := st4.entries ++
                [{ user_id := uid, festival_id := fid, week_key := weekKey,
                   entry_count := 1 }] }
        (none, st5)

/-- PENDING photos of the user and festival created in the trailing 30
minutes, oldest first (main.py:575-589). -/
def eligiblePhotos (st : St) (uid fid : String) (now : Nat) : List Photo :=
  sortAsc (st.photos.filter (fun p =>
    p.user_id == uid && p.festival_id == fid &&
    (p.status == PhotoStatus.pending) && decide (now - 1800 ≤ p.created_at)))

/-- The greedy activation loop of `scan_bin` (main.py:593-599): break at
the first photo whose points would push the running total above the
remaining cap; return the accumulated amount and the batch ids. -/
def greedyActivate (cap : Int) : Int → List Photo → Int × List Nat
  | acc, [] => (acc, [])
  | acc, p :: rest =>
    if cap < acc + p.points then (acc, [])
    else
      let r := greedyActivate cap (acc + p.points) rest
      (r.1, p.id :: r.2)

/-- The remaining cap of `scan_bin` (main.py:571):
`max(0, cap - (total_active + total_consumed))`. -/
def remaining_cap (fest : Festival) (s : Summary) : Int :=
  max 0 (fest.per_user_daily_cap - (s.total_active + s.total_consumed))

/-- `scan_bin` (main.py:530-625).  `binCode` is the already-normalized
bin code (the string canonicalization of main.py:211-218 is orthogonal
to every audited property). -/
def scan_bin (env : Env) (fid uid binCode : String) (lat lng : Option ℚ)
    (now : Nat) (today : String) (st : St) : Option Err × St :=
  if binCode == "" then (some Err.badRequest, st)
  else match getFestival env fid with
  | none => (some Err.notFound, st)
  | some fest =>
    match env.bins.find? (fun b => b.festival_id == fid && b.code == binCode) with
    | none => (some Err.notFound, st)
    | some binObj =>
      if ¬ env.users.contains uid then (some Err.notFound, st)
      else if ¬ is_inside_festival env.dist fest lat lng then
        (some Err.outsideGeofence, st)
      else if fest.budget ≤ get_budget_usage st fid then (some Err.budgetExhausted, st)
      else
        let es := ensure_summary st uid fid today
        let summary := es.1
        let st1 := es.2
        let remainingCap := remaining_cap fest summary
        if remainingCap ≤ 0 then (some Err.capExceeded, st1)
        else
          let elig := eligiblePhotos st1 uid fid now
          if elig.isEmpty then (some Err.nothingToActivate, st1)
          else
            let g := greedyActivate remainingCap 0 elig
            let activated := g.1
            let ids := g.2
            if ids.isEmpty then (some Err.capExceeded, st1)
            else
              let st2 : St :=
                { st1 with
                  photos := st1.photos.map (fun p =>
                    if ids.contains p.id then { p with status := PhotoStatus.active }
                    else p),
                  summaries := updateFirst (summaryKey uid fid today)
                    (fun s => { s with
                        total_pending := s.total_pending - activated,
                        total_active := s.total_active + activated }) st1.summaries,
                  scans := st1.scans ++
                    [{ festival_id := fid, bin_id := binObj.id, user_id := uid }] }
              (none, st2)

/-- The redemption code of `issue_coupon` (main.py:677): the amount and
the last six characters of the nanosecond clock reading. -/
def couponCode (amount : Int) (nowNs : Nat) : String :=
  "HDFEST-" ++ toString amount ++ "-" ++ (toString nowNs).takeRight 6

/-- `issue_coupon` (main.py:638-691).  There is no user-existence check
and no positivity check on the amount in the source. -/
def issue_coupon (env : Env) (fid uid shopName : String) (amount : Option Int)
    (nowNs : Nat) (today : String) (st : St) : Option Err × St :=
  if shopName == "" then (some Err.badRequest, st)
  else match amount with
  | none => (some Err.badRequest, st)
  | some amt =>
    match getFestival env fid with
    | none => (some Err.notFound, st)
    | some fest =>
      let es := ensure_summary st uid fid today
      let st1 := es.2
      match findSummary st1 uid fid today with
      | none => (some Err.badRequest, st1)
      | some summary =>
        if summary.total_active < amt then (some Err.insufficientBalance, st1)
        else if fest.budget < get_budget_usage st1 fid + amt then
          (some Err.budgetExhausted, st1)
        else
          let st2 : St :=
            { st1 with
              summaries := updateFirst (summaryKey uid fid today)
                (fun s => { s with
                    total_active := s.total_active - amt,
                    total_consumed := s.total_consumed + amt }) st1.summaries,
              coupons := st1.coupons ++
                [{ user_id := uid, festival_id := fid, shop_name := shopName,
                   amount := amt, code := couponCode amt nowNs }] }
          (none, st2)

/-- Entries of the festival for one week key (main.py:883-892). -/
def weekEntries (st : St) (fid weekKey : String) : List EntryR :=
  st.entries.filter (fun e => e.festival_id == fid && e.week_key == weekKey)

/-- The entry `random.choices` returns, resolved by the pick index
(meaningful only when the entry list is non-empty). -/
def pickedEntry (fid weekKey : String) (pick : Nat) (entries : List EntryR) : EntryR :=
  entries.getD (pick % entries.length)
    { user_id := "", festival_id := fid, week_key := weekKey, entry_count := 0 }

/-- `draw_jackpot` (main.py:870-940).  `pick` resolves the weighted
random winner selection: every entry of the current week has a positive
entry count in reachable states, so `random.choices` can return any of
them; the model picks entry `pick % entries.length`. -/
def draw_jackpot (env : Env) (fid weekKey today : String) (pick : Nat) (st : St) :
    Option Err × St :=
  match st.pools.find? (fun pl => pl.festival_id == fid) with
  | none => (some Err.notFound, st)
  | some pool =>
    let entries := weekEntries st fid weekKey
    if entries.isEmpty then (some Err.noParticipants, st)
    else
      let winner := pickedEntry fid weekKey pick entries
      let winnerId := winner.user_id
      if ¬ env.users.contains winnerId then (some Err.notFound, st)
      else
        let st1 : St :=
          match findSummary st winnerId fid today with
          | some _ =>
            { st with
              summaries := updateFirst (summaryKey winnerId fid today)
                (fun s => { s with total_active := s.total_active + pool.current_amount })
                st.summaries }
          | none =>
            { st with
              summaries := st.summaries ++
                [{ user_id := winnerId, festival_id := fid, date := today,
                   total_active := pool.current_amount }] }
        let st2 : St :=
          { st1 with
            winners := st1.winners ++
              [{ user_id := winnerId, festival_id := fid, week_key := weekKey,
                 amount := pool.current_amount }],
            pools := updateFirst (fun pl => pl.festival_id == fid)
              (fun pl => { pl with
                  current_amount := pl.seed_amount,
                  last_winner_id := some winnerId,
                  last_draw_date := some today }) st1.pools }
        (none, st2)

/-- Modelled from the spec: `ensure_jackpot_pool` is called by the
repository's tests (tests/test_jackpot_flow.py) but is absent from the
main.py under src.  Spec section 4.5: the pool is "lazily primed on
first reference for a festival (seed from config, optionally raised to a
target-based starting amount if configured)", and the section 8 scenario
fixes the priming value as the maximum of the seed and the start-percent
share of the target.  A second reference finds the row and changes
nothing. -/
def ensure_jackpot_pool (seed target : Int) (startPercent rate : ℚ)
    (fid : String) (st : St) : Pool × St :=
  match st.pools.find? (fun pl => pl.festival_id == fid) with
  | some pl => (pl, st)
  | none =>
    let primed := max seed (pyInt ((target : ℚ) * startPercent))
    let pl : Pool := { festival_id := fid, current_amount := primed,
                       seed_amount := seed, contribution_rate := rate }
    (pl, { st with pools := st.pools ++ [pl] })

/-- States reachable by committed operations, drawing included.  The
scheduler freely chooses users, festivals, payloads and clock values. -/
inductive Reachable (env : Env) : St → Prop
  | init : Reachable env {}
  | upload (fid uid : String) (lat lng : Option ℚ) (imageHash : String)
      (now : Nat) (today weekKey : String) (st : St) :
      Reachable env st →
      Reachable env (upload_photo env fid uid lat lng imageHash now today weekKey st).2
  | scan (fid uid binCode : String) (lat lng : Option ℚ) (now : Nat)
      (today : String) (st : St) :
      Reachable env st →
      Reachable env (scan_bin env fid uid binCode lat lng now today st).2
  | coupon (fid uid shopName : String) (amount : Option Int) (nowNs : Nat)
      (today : String) (st : St) :
      Reachable env st →
      Reachable env (issue_coupon env fid uid shopName amount nowNs today st).2
  | draw (fid weekKey today : String) (pick : Nat) (st : St) :
      Reachable env st →
      Reachable env (draw_jackpot env fid weekKey today pick st).2

/-- States reachable without the jackpot draw. -/
inductive ReachableNoDraw (env : Env) : St → Prop
  | init : ReachableNoDraw env {}
  | upload (fid uid : String) (lat lng : Option ℚ) (imageHash : String)
      (now : Nat) (today weekKey : String) (st : St) :
      ReachableNoDraw env st →
      ReachableNoDraw env (upload_photo env fid uid lat lng imageHash now today weekKey st).2
  | scan (fid uid binCode : String) (lat lng : Option ℚ) (now : Nat)
      (today : String) (st : St) :
      ReachableNoDraw env st →
      ReachableNoDraw env (scan_bin env fid uid binCode lat lng now today st).2
  | coupon (fid uid shopName : String) (amount : Option Int) (nowNs : Nat)
      (today : String) (st : St) :
      ReachableNoDraw env st →
      ReachableNoDraw env (issue_coupon env fid uid shopName amount nowNs today st).2

/-! ### Toolkit lemmas about the store primitives -/

theorem updateFirst_of_find?_none {p : α → Bool} {f : α → α} {l : List α}
    (h : l.find? p = none) : updateFirst p f l = l := by
  induction l with
  | nil => rfl
  | cons x xs ih =>
    rw [List.find?_cons] at h
    cases hx : p x with
    | true => simp [hx] at h
    | false =>
      simp only [hx] at h
      simp [updateFirst, hx, ih h]

theorem find?_updateFirst {p : α → Bool} {f : α → α} {l : List α} {y : α}
    (h : l.find? p = some y) (hf : p (f y) = true) :
    (updateFirst p f l).find? p = some (f y) := by
  induction l with
  | nil => simp at h
  | cons x xs ih =>
    rw [List.find?_cons] at h
    cases hx : p x with
    | true =>
      simp only [hx] at h
      cases h
      simp [updateFirst, hx, List.find?_cons, hf]
    | false =>
      simp only [hx] at h
      simp [updateFirst, hx, List.find?_cons, ih h]

theorem mem_updateFirst {p : α → Bool} {f : α → α} {l : List α} {x : α}
    (hx : x ∈ updateFirst p f l) :
    x ∈ l ∨ ∃ y, l.find? p = some y ∧ x = f y := by
  induction l with
  | nil => simp [updateFirst] at hx
  | cons a as ih =>
    cases ha : p a with
    | true =>
      simp only [updateFirst, ha, if_true, List.mem_cons] at hx
      rcases hx with h | h
      · exact Or.inr ⟨a, by simp [List.find?_cons, ha], h⟩
      · exact Or.inl (List.mem_cons_of_mem _ h)
    | false =>
      simp only [updateFirst, ha] at hx
      simp only [Bool.false_eq_true, if_false, List.mem_cons] at hx
      rcases hx with h | h
      · exact Or.inl (by simp [h])
      · rcases ih h with h' | ⟨y, hy, hxy⟩
        · exact Or.inl (List.mem_cons_of_mem _ h')
        · exact Or.inr ⟨y, by simp [List.find?_cons, ha, hy], hxy⟩

theorem updateFirst_append_of_none {p : α → Bool} {f : α → α} {l l' : List α}
    (h : l.find? p = none) :
    updateFirst p f (l ++ l') = l ++ updateFirst p f l' := by
  induction l with
  | nil => rfl
  | cons x xs ih =>
    rw [List.find?_cons] at h
    cases hx : p x with
    | true => simp [hx] at h
    | false =>
      simp only [hx] at h
      simp [updateFirst, hx, ih h]

theorem find?_append_of_none {p : α → Bool} {l l' : List α}
    (h : l.find? p = none) : (l ++ l').find? p = l'.find? p := by
  induction l with
  | nil => rfl
  | cons x xs ih =>
    rw [List.find?_cons] at h
    cases hx : p x with
    | true => simp [hx] at h
    | false =>
      simp only [hx] at h
      simp [List.find?_cons, hx, ih h]

theorem photoSum_append (a b : List Photo) (fid : String) :
    photoSum (a ++ b) fid = photoSum a fid + photoSum b fid := by
  simp [photoSum, List.filter_append]

theorem couponSum_append (a b : List CouponR) (fid : String) :
    couponSum (a ++ b) fid = couponSum a fid + couponSum b fid := by
  simp [couponSum, List.filter_append]

theorem photoSum_map_preserve (l : List Photo) (fid : String) (f : Photo → Photo)
    (hf : ∀ p, (f p).festival_id = p.festival_id ∧ (f p).points = p.points) :
    photoSum (l.map f) fid = photoSum l fid := by
  induction l with
  | nil => rfl
  | cons p ps ih =>
    simp only [List.map_cons, photoSum, List.filter_cons]
    rcases hf p with ⟨h1, h2⟩
    by_cases hp : p.festival_id == fid
    · simp only [h1, hp, if_true]
      simpa [photoSum, h2] using congrArg (fun z => (f p).points + z) ih
    · simp only [h1, hp, if_false]
      exact ih

/-- The zero summary row `ensure_summary` creates. -/
def zeroSummary (uid fid date : String) : Summary :=
  { user_id := uid, festival_id := fid, date := date }

theorem ensure_summary_photos (st : St) (uid fid date : String) :
    (ensure_summary st uid fid date).2.photos = st.photos := by
  unfold ensure_summary
  cases h : findSummary st uid fid date <;> simp

theorem ensure_summary_coupons (st : St) (uid fid date : String) :
    (ensure_summary st uid fid date).2.coupons = st.coupons := by
  unfold ensure_summary
  cases h : findSummary st uid fid date <;> simp

theorem ensure_summary_pools (st : St) (uid fid date : String) :
    (ensure_summary st uid fid date).2.pools = st.pools := by
  unfold ensure_summary
  cases h : findSummary st uid fid date <;> simp

theorem ensure_summary_entries (st : St) (uid fid date : String) :
    (ensure_summary st uid fid date).2.entries = st.entries := by
  unfold ensure_summary
  cases h : findSummary st uid fid date <;> simp

theorem get_budget_usage_ensure_summary (st : St) (uid fid date fid' : String) :
    get_budget_usage (ensure_summary st uid fid date).2 fid' = get_budget_usage st fid' := by
  unfold get_budget_usage
  rw [ensure_summary_photos, ensure_summary_coupons]

theorem ensure_summary_summaries (st : St) (uid fid date : String) :
    (ensure_summary st uid fid date).2.summaries = st.summaries ∨
    (ensure_summary st uid fid date).2.summaries
      = st.summaries ++ [zeroSummary uid fid date] := by
  unfold ensure_summary
  cases h : findSummary st uid fid date
  · exact Or.inr rfl
  · exact Or.inl rfl

theorem summaryKey_zero (uid fid date : String) :
    summaryKey uid fid date (zeroSummary uid fid date) = true := by
  simp [summaryKey, zeroSummary]

theorem ensure_summary_found (st : St) (uid fid date : String) :
    findSummary (ensure_summary st uid fid date).2 uid fid date
      = some (ensure_summary st uid fid date).1 := by
  unfold ensure_summary
  cases h : findSummary st uid fid date with
  | some s => simpa [findSummary] using h
  | none =>
    simp only
    unfold findSummary at h ⊢
    rw [find?_append_of_none h]
    simp [List.find?_cons, summaryKey]

theorem summaryKey_eq {uid fid date : String} {s : Summary}
    (h : summaryKey uid fid date s = true) :
    s.user_id = uid ∧ s.festival_id = fid ∧ s.date = date := by
  simp only [summaryKey, Bool.and_eq_true, beq_iff_eq] at h
  exact ⟨h.1.1, h.1.2, h.2⟩

theorem photoSum_singleton (p : Photo) (fid : String) :
    photoSum [p] fid = if p.festival_id = fid then p.points else 0 := by
  simp only [photoSum, List.filter]
  split
  · next h => simp [beq_iff_eq] at h; simp [h]
  · next h => simp [beq_iff_eq] at h; simp [h]

theorem couponSum_singleton (c : CouponR) (fid : String) :
    couponSum [c] fid = if c.festival_id = fid then c.amount else 0 := by
  simp only [couponSum, List.filter]
  split
  · next h => simp [beq_iff_eq] at h; simp [h]
  · next h => simp [beq_iff_eq] at h; simp [h]

/-! ### Budget bookkeeping of each operation -/

/-- `upload_photo` either leaves the budget usage of every festival
unchanged (any gate failure) or, having passed the budget gate, adds
exactly `per_photo_point` to the festival it was called on. -/
theorem upload_photo_budget_char (env : Env) (fid uid : String) (lat lng : Option ℚ)
    (ih : String) (now : Nat) (today wk : String) (st : St) (fid' : String) :
    get_budget_usage (upload_photo env fid uid lat lng ih now today wk st).2 fid'
      = get_budget_usage st fid' ∨
    ∃ fest, getFestival env fid = some fest ∧
      get_budget_usage st fid + fest.per_photo_point ≤ fest.budget ∧
      get_budget_usage (upload_photo env fid uid lat lng ih now today wk st).2 fid'
        = get_budget_usage st fid'
          + (if fid = fid' then fest.per_photo_point else 0) := by
  simp only [upload_photo]
  split
  · exact Or.inl rfl
  split
  · exact Or.inl rfl
  next fest hfest =>
  split
  · exact Or.inl rfl
  split
  · exact Or.inl rfl
  split
  · exact Or.inl rfl
  split
  · exact Or.inl (get_budget_usage_ensure_summary st uid fid today fid')
  split
  · exact Or.inl (get_budget_usage_ensure_summary st uid fid today fid')
  next hbud =>
  rw [get_budget_usage_ensure_summary st uid fid today fid] at hbud
  refine Or.inr ⟨fest, hfest, by omega, ?_⟩
  simp only [get_budget_usage]
  rw [ensure_summary_photos, ensure_summary_coupons]
  split <;> split <;>
  · by_cases hf : fid = fid' <;>
      simp [photoSum_append, photoSum_singleton, hf] <;> omega

/-- `issue_coupon` either leaves the budget usage of every festival
unchanged or, having passed the budget gate, adds exactly the coupon
amount to the festival it was called on. -/
theorem issue_coupon_budget_char (env : Env) (fid uid shopName : String)
    (amount : Option Int) (nowNs : Nat) (today : String) (st : St) (fid' : String) :
    get_budget_usage (issue_coupon env fid uid shopName amount nowNs today st).2 fid'
      = get_budget_usage st fid' ∨
    ∃ fest amt, getFestival env fid = some fest ∧ amount = some amt ∧
      get_budget_usage st fid + amt ≤ fest.budget ∧
      get_budget_usage (issue_coupon env fid uid shopName amount nowNs today st).2 fid'
        = get_budget_usage st fid' + (if fid = fid' then amt else 0) := by
  simp only [issue_coupon]
  split
  · exact Or.inl rfl
  split
  · exact Or.inl rfl
  next amt =>
  split
  · exact Or.inl rfl
  next fest hfest =>
  split
  · exact Or.inl (get_budget_usage_ensure_summary st uid fid today fid')
  next summary hsum =>
  split
  · exact Or.inl (get_budget_usage_ensure_summary st uid fid today fid')
  split
  · exact Or.inl (get_budget_usage_ensure_summary st uid fid today fid')
  next hbud =>
  rw [get_budget_usage_ensure_summary st uid fid today fid] at hbud
  refine Or.inr ⟨fest, amt, hfest, rfl, by omega, ?_⟩
  simp only [get_budget_usage]
  rw [ensure_summary_photos, ensure_summary_coupons]
  by_cases hf : fid = fid' <;>
    simp [couponSum_append, couponSum_singleton, hf] <;> omega

/-- `scan_bin` never changes any festival's budget usage: it only flips
photo statuses, moves summary balances and appends a scan audit row. -/
theorem scan_bin_budget_char (env : Env) (fid uid binCode : String)
    (lat lng : Option ℚ) (now : Nat) (today : String) (st : St) (fid' : String) :
    get_budget_usage (scan_bin env fid uid binCode lat lng now today st).2 fid'
      = get_budget_usage st fid' := by
  simp only [scan_bin]
  split
  · rfl
  split
  · rfl
  next fest hfest =>
  split
  · rfl
  next binObj hbin =>
  split
  · rfl
  split
  · rfl
  split
  · rfl
  split
  · exact get_budget_usage_ensure_summary st uid fid today fid'
  split
  · exact get_budget_usage_ensure_summary st uid fid today fid'
  split
  · exact get_budget_usage_ensure_summary st uid fid today fid'
  simp only [get_budget_usage]
  rw [ensure_summary_coupons]
  rw [photoSum_map_preserve _ _ _ (fun p => by split <;> simp)]
  rw [ensure_summary_photos]

/-- `draw_jackpot` never changes any festival's budget usage. -/
theorem draw_jackpot_budget_char (env : Env) (fid weekKey today : String)
    (pick : Nat) (st : St) (fid' : String) :
    get_budget_usage (draw_jackpot env fid weekKey today pick st).2 fid'
      = get_budget_usage st fid' := by
  simp only [draw_jackpot]
  split
  · rfl
  next pool hpool =>
  split
  · rfl
  split
  · rfl
  simp only [get_budget_usage]
  split <;> rfl

/-- C2: for every state reachable by any sequence of committed
operations, every festival (identified through the `db.get` lookup the
operations themselves use) satisfies
`usedBudget(festival) <= festival.budget`, where `usedBudget` sums all
TrashPhoto points and all Coupon amounts of the festival.  The spec
invariant `budget >= 0` on Festival rows is the only hypothesis. -/
theorem c2_used_budget_invariant (env : Env)
    (hb : ∀ f ∈ env.festivals, 0 ≤ f.budget) {s : St} (h : Reachable env s) :
    ∀ fid fest, getFestival env fid = some fest →
      get_budget_usage s fid ≤ fest.budget := by
  induction h with
  | init =>
    intro fid fest hfest
    have : fest ∈ env.festivals := List.mem_of_find?_eq_some hfest
    have h0 : get_budget_usage {} fid = 0 := by
      simp [get_budget_usage, photoSum, couponSum]
    rw [h0]
    exact hb fest this
  | upload fid uid lat lng ih now today wk st _ IH =>
    intro fid' fest' hfest'
    rcases upload_photo_budget_char env fid uid lat lng ih now today wk st fid' with
      heq | ⟨fest, hfest, hgate, heq⟩
    · rw [heq]; exact IH fid' fest' hfest'
    · rw [heq]
      by_cases hf : fid = fid'
      · subst hf
        rw [hfest] at hfest'
        cases hfest'
        simpa using hgate
      · simp only [hf, if_false]
        simpa using IH fid' fest' hfest'
  | scan fid uid binCode lat lng now today st _ IH =>
    intro fid' fest' hfest'
    rw [scan_bin_budget_char]
    exact IH fid' fest' hfest'
  | coupon fid uid shopName amount nowNs today st _ IH =>
    intro fid' fest' hfest'
    rcases issue_coupon_budget_char env fid uid shopName amount nowNs today st fid' with
      heq | ⟨fest, amt, hfest, _, hgate, heq⟩
    · rw [heq]; exact IH fid' fest' hfest'
    · rw [heq]
      by_cases hf : fid = fid'
      · subst hf
        rw [hfest] at hfest'
        cases hfest'
        simpa using hgate
      · simp only [hf, if_false]
        simpa using IH fid' fest' hfest'
  | draw fid weekKey today pick st _ IH =>
    intro fid' fest' hfest'
    rw [draw_jackpot_budget_char]
    exact IH fid' fest' hfest'

/-! ### Fixtures used by the concrete counterexamples and witnesses -/

/-- The out-of-scope great-circle distance utility, pinned to zero for
the concrete runs (none of them configures a geofence center). -/
def zeroDist : ℚ → ℚ → ℚ → ℚ → ℚ := fun _ _ _ _ => 0

/-- A festival whose daily cap (2) is smaller than its per-photo reward
(3): spec data that exposes the cap-gate overshoot. -/
def festA : Festival :=
  { id := "f", budget := 1000000, per_user_daily_cap := 2, per_photo_point := 3 }

def envA : Env := { festivals := [festA], users := ["u"], bins := [], dist := zeroDist }

/-- A festival with daily cap 0: its first upload fails the cap gate. -/
def festB : Festival :=
  { id := "f", budget := 1000000, per_user_daily_cap := 0, per_photo_point := 3 }

def envB : Env := { festivals := [festB], users := ["u"], bins := [], dist := zeroDist }

/-- A plain festival (cap 10, reward 6) with one registered bin. -/
def festC : Festival :=
  { id := "f", budget := 1000000, per_user_daily_cap := 10, per_photo_point := 6 }

def envC : Env :=
  { festivals := [festC], users := ["u"],
    bins := [{ id := "b1", festival_id := "f", code := "B" }], dist := zeroDist }

/-- Two PENDING photos worth 6 points each: the cap of `festC` lets the
greedy activation take only the first. -/
def stC : St :=
  { photos :=
      [{ id := 0, user_id := "u", festival_id := "f", hash := "x",
         status := PhotoStatus.pending, points := 6, created_at := 100 },
       { id := 1, user_id := "u", festival_id := "f", hash := "y",
         status := PhotoStatus.pending, points := 6, created_at := 200 }],
    next_photo_id := 2 }

/-- A pool of 50 with seed 10 and one jackpot entry for user `u`. -/
def stD : St :=
  { pools := [{ festival_id := "f", current_amount := 50, seed_amount := 10,
                contribution_rate := 1 }],
    entries := [{ user_id := "u", festival_id := "f", week_key := "w",
                  entry_count := 1 }] }


/-! ### Summary bookkeeping of each operation -/

/-- Each summary row after `upload_photo` is an old row, a freshly
created zero row, or the gated row credited with `per_photo_point`
after the cap gate saw a strictly smaller total. -/
theorem upload_photo_summary_char (env : Env) (fid uid : String) (lat lng : Option ℚ)
    (ih : String) (now : Nat) (today wk : String) (st : St) :
    ∀ s' ∈ (upload_photo env fid uid lat lng ih now today wk st).2.summaries,
      s' ∈ st.summaries ∨ summaryTotal s' = 0 ∨
      ∃ fest s0, getFestival env fid = some fest ∧ s'.festival_id = fid ∧
        summaryTotal s0 < fest.per_user_daily_cap ∧
        summaryTotal s' = summaryTotal s0 + fest.per_photo_point := by
  intro s' hs'
  simp only [upload_photo] at hs'
  split at hs'
  · exact Or.inl hs'
  split at hs'
  · exact Or.inl hs'
  next fest hfest =>
  split at hs'
  · exact Or.inl hs'
  split at hs'
  · exact Or.inl hs'
  split at hs'
  · exact Or.inl hs'
  have hens : ∀ t ∈ (ensure_summary st uid fid today).2.summaries,
      t ∈ st.summaries ∨ summaryTotal t = 0 := by
    intro t ht
    rcases ensure_summary_summaries st uid fid today with he | he <;> rw [he] at ht
    · exact Or.inl ht
    · rcases List.mem_append.1 ht with h | h
      · exact Or.inl h
      · right
        simp only [List.mem_singleton] at h
        subst h
        simp [summaryTotal, zeroSummary]
  split at hs'
  · rcases hens s' hs' with h | h
    · exact Or.inl h
    · exact Or.inr (Or.inl h)
  split at hs'
  · rcases hens s' hs' with h | h
    · exact Or.inl h
    · exact Or.inr (Or.inl h)
  next hcap hbud =>
  split at hs' <;> split at hs' <;>
  · simp only [] at hs'
    rcases mem_updateFirst hs' with h | ⟨y, hy, hsy⟩
    · rcases hens s' h with h' | h'
      · exact Or.inl h'
      · exact Or.inr (Or.inl h')
    · have hfound := ensure_summary_found st uid fid today
      unfold findSummary at hfound
      rw [hfound] at hy
      cases hy
      have hkey : summaryKey uid fid today (ensure_summary st uid fid today).1 = true := by
        have := ensure_summary_found st uid fid today
        unfold findSummary at this
        exact List.find?_some this
      rcases summaryKey_eq hkey with ⟨-, hfid, -⟩
      refine Or.inr (Or.inr ⟨fest, (ensure_summary st uid fid today).1, hfest, ?_, ?_, ?_⟩)
      · subst hsy; simpa using hfid
      · omega
      · subst hsy; simp [summaryTotal]; ring

/-- Each summary row after `scan_bin` is an old row, a zero-total row,
or a balance-shuffled old row with the same total and festival. -/
theorem scan_bin_summary_char (env : Env) (fid uid binCode : String)
    (lat lng : Option ℚ) (now : Nat) (today : String) (st : St) :
    ∀ s' ∈ (scan_bin env fid uid binCode lat lng now today st).2.summaries,
      s' ∈ st.summaries ∨ summaryTotal s' = 0 ∨
      ∃ s0, s0 ∈ st.summaries ∧ summaryTotal s' = summaryTotal s0 ∧
        s'.festival_id = s0.festival_id := by
  intro s' hs'
  simp only [scan_bin] at hs'
  split at hs'
  · exact Or.inl hs'
  split at hs'
  · exact Or.inl hs'
  next fest hfest =>
  split at hs'
  · exact Or.inl hs'
  next binObj hbin =>
  split at hs'
  · exact Or.inl hs'
  split at hs'
  · exact Or.inl hs'
  split at hs'
  · exact Or.inl hs'
  have hens : ∀ t ∈ (ensure_summary st uid fid today).2.summaries,
      t ∈ st.summaries ∨ summaryTotal t = 0 := by
    intro t ht
    rcases ensure_summary_summaries st uid fid today with he | he <;> rw [he] at ht
    · exact Or.inl ht
    · rcases List.mem_append.1 ht with h | h
      · exact Or.inl h
      · right
        simp only [List.mem_singleton] at h
        subst h
        simp [summaryTotal, zeroSummary]
  split at hs'
  · rcases hens s' hs' with h | h
    · exact Or.inl h
    · exact Or.inr (Or.inl h)
  split at hs'
  · rcases hens s' hs' with h | h
    · exact Or.inl h
    · exact Or.inr (Or.inl h)
  split at hs'
  · rcases hens s' hs' with h | h
    · exact Or.inl h
    · exact Or.inr (Or.inl h)
  simp only [] at hs'
  rcases mem_updateFirst hs' with h | ⟨y, hy, hsy⟩
  · rcases hens s' h with h' | h'
    · exact Or.inl h'
    · exact Or.inr (Or.inl h')
  · have hfound := ensure_summary_found st uid fid today
    unfold findSummary at hfound
    rw [hfound] at hy
    cases hy
    rcases hens _ (List.mem_of_find?_eq_some (by
      have := ensure_summary_found st uid fid today
      unfold findSummary at this
      exact this)) with h' | h'
    · refine Or.inr (Or.inr ⟨(ensure_summary st uid fid today).1, h', ?_, ?_⟩)
      · subst hsy; simp only [summaryTotal]; ring
      · subst hsy; rfl
    · right; left
      subst hsy
      simp only [summaryTotal] at h' ⊢
      omega

/-- Each summary row after `issue_coupon` is an old row, a zero-total
row, or a balance-shuffled old row with the same total and festival. -/
theorem issue_coupon_summary_char (env : Env) (fid uid shopName : String)
    (amount : Option Int) (nowNs : Nat) (today : String) (st : St) :
    ∀ s' ∈ (issue_coupon env fid uid shopName amount nowNs today st).2.summaries,
      s' ∈ st.summaries ∨ summaryTotal s' = 0 ∨
      ∃ s0, s0 ∈ st.summaries ∧ summaryTotal s' = summaryTotal s0 ∧
        s'.festival_id = s0.festival_id := by
  intro s' hs'
  simp only [issue_coupon] at hs'
  split at hs'
  · exact Or.inl hs'
  split at hs'
  · exact Or.inl hs'
  split at hs'
  · exact Or.inl hs'
  next fest hfest =>
  have hens : ∀ t ∈ (ensure_summary st uid fid today).2.summaries,
      t ∈ st.summaries ∨ summaryTotal t = 0 := by
    intro t ht
    rcases ensure_summary_summaries st uid fid today with he | he <;> rw [he] at ht
    · exact Or.inl ht
    · rcases List.mem_append.1 ht with h | h
      · exact Or.inl h
      · right
        simp only [List.mem_singleton] at h
        subst h
        simp [summaryTotal, zeroSummary]
  split at hs'
  · rcases hens s' hs' with h | h
    · exact Or.inl h
    · exact Or.inr (Or.inl h)
  next summary hsum =>
  split at hs'
  · rcases hens s' hs' with h | h
    · exact Or.inl h
    · exact Or.inr (Or.inl h)
  split at hs'
  · rcases hens s' hs' with h | h
    · exact Or.inl h
    · exact Or.inr (Or.inl h)
  simp only [] at hs'
  rcases mem_updateFirst hs' with h | ⟨y, hy, hsy⟩
  · rcases hens s' h with h' | h'
    · exact Or.inl h'
    · exact Or.inr (Or.inl h')
  · have hfound := ensure_summary_found st uid fid today
    unfold findSummary at hfound
    rw [hfound] at hy
    cases hy
    rcases hens _ (List.mem_of_find?_eq_some (by
      have := ensure_summary_found st uid fid today
      unfold findSummary at this
      exact this)) with h' | h'
    · refine Or.inr (Or.inr ⟨(ensure_summary st uid fid today).1, h', ?_, ?_⟩)
      · subst hsy; simp only [summaryTotal]; ring
      · subst hsy; rfl
    · right; left
      subst hsy
      simp only [summaryTotal] at h' ⊢
      omega

/-- C1 counterexample: the claimed invariant
`totalPending + totalActive + totalConsumed <= perUserDailyCap` fails on
a reachable state.  With cap 2 and per-photo reward 3, the cap gate of
`upload_photo` (which only requires the pre-credit total to be strictly
below the cap) admits a photo that pushes the total to 3 > 2. -/
theorem c1_cap_invariant_cex :
    ∃ s : St, Reachable envA s ∧ ∃ sum ∈ s.summaries, ∃ fest ∈ envA.festivals,
      fest.id = sum.festival_id ∧ fest.per_user_daily_cap < summaryTotal sum := by
  refine ⟨(upload_photo envA "f" "u" none none "h" 0 "d" "w" {}).2,
    Reachable.upload "f" "u" none none "h" 0 "d" "w" {} Reachable.init,
    { user_id := "u", festival_id := "f", date := "d", total_pending := 3 },
    by decide, festA, by decide, by decide, by decide⟩

/-- C1 (amended): the cap invariant as stated is violated; what the code
guarantees, for every state reachable without `draw_jackpot` (the draw
credits the pool with no cap check at all), is the weaker bound
`totalPending + totalActive + totalConsumed
  <= perUserDailyCap + max (perPhotoPoint - 1) 0`
for every summary row, because the cap gate only checks that the
pre-credit total is strictly below the cap before adding one photo's
points.  Hypothesis: every festival's configured cap is non-negative. -/
theorem c1_cap_bound_amended (env : Env)
    (hcap : ∀ f ∈ env.festivals, 0 ≤ f.per_user_daily_cap) {s : St}
    (h : ReachableNoDraw env s) :
    ∀ sum ∈ s.summaries, ∀ fest, getFestival env sum.festival_id = some fest →
      summaryTotal sum ≤ fest.per_user_daily_cap + max (fest.per_photo_point - 1) 0 := by
  induction h with
  | init => intro sum hsum; simp at hsum
  | upload fid uid lat lng ih now today wk st _ IH =>
    intro sum hsum fest hfest
    rcases upload_photo_summary_char env fid uid lat lng ih now today wk st sum hsum with
      h1 | h2 | ⟨fest0, s0, hfest0, hfid, hlt, heq⟩
    · exact IH sum h1 fest hfest
    · have h0 : 0 ≤ fest.per_user_daily_cap :=
        hcap fest (List.mem_of_find?_eq_some hfest)
      have hm : (0:Int) ≤ max (fest.per_photo_point - 1) 0 := le_max_right _ _
      omega
    · rw [hfid] at hfest
      rw [hfest0] at hfest
      have hfe : fest0 = fest := by injection hfest
      rw [hfe] at hlt heq
      have hm1 : fest.per_photo_point - 1 ≤ max (fest.per_photo_point - 1) 0 :=
        le_max_left _ _
      have hm2 : (0:Int) ≤ max (fest.per_photo_point - 1) 0 := le_max_right _ _
      omega
  | scan fid uid binCode lat lng now today st _ IH =>
    intro sum hsum fest hfest
    rcases scan_bin_summary_char env fid uid binCode lat lng now today st sum hsum with
      h1 | h2 | ⟨s0, hs0, heqT, heqF⟩
    · exact IH sum h1 fest hfest
    · have h0 : 0 ≤ fest.per_user_daily_cap :=
        hcap fest (List.mem_of_find?_eq_some hfest)
      have hm : (0:Int) ≤ max (fest.per_photo_point - 1) 0 := le_max_right _ _
      omega
    · rw [heqF] at hfest
      rw [heqT]
      exact IH s0 hs0 fest hfest
  | coupon fid uid shopName amount nowNs today st _ IH =>
    intro sum hsum fest hfest
    rcases issue_coupon_summary_char env fid uid shopName amount nowNs today st sum hsum with
      h1 | h2 | ⟨s0, hs0, heqT, heqF⟩
    · exact IH sum h1 fest hfest
    · have h0 : 0 ≤ fest.per_user_daily_cap :=
        hcap fest (List.mem_of_find?_eq_some hfest)
      have hm : (0:Int) ≤ max (fest.per_photo_point - 1) 0 := le_max_right _ _
      omega
    · rw [heqF] at hfest
      rw [heqT]
      exact IH s0 hs0 fest hfest

/-- C1 witness: the amended bound evaluated on the concrete overshoot
run (cap 2, reward 3, total 3 <= 2 + 2). -/
theorem c1_cap_bound_witness :
    (∀ f ∈ envA.festivals, 0 ≤ f.per_user_daily_cap) ∧
    summaryTotal { user_id := "u", festival_id := "f", date := "d", total_pending := 3 }
      ≤ festA.per_user_daily_cap + max (festA.per_photo_point - 1) 0 :=
  ⟨by decide,
   c1_cap_bound_amended envA (by decide)
     (ReachableNoDraw.upload "f" "u" none none "h" 0 "d" "w" {} ReachableNoDraw.init)
     { user_id := "u", festival_id := "f", date := "d", total_pending := 3 }
     (by decide) festA (by decide)⟩

/-- C2 witness: the budget invariant evaluated on a concrete run of one
accepted upload against `festA`. -/
theorem c2_used_budget_witness :
    get_budget_usage (upload_photo envA "f" "u" none none "h" 0 "d" "w" {}).2 "f"
      ≤ festA.budget :=
  c2_used_budget_invariant envA (by decide)
    (Reachable.upload "f" "u" none none "h" 0 "d" "w" {} Reachable.init)
    "f" festA (by decide)


/-- C3 counterexample: `issue_coupon` does not require `amount > 0`.
On a fresh state (totalActive = 0) a coupon of amount 0 is issued
successfully, refuting "succeeds only if amount > 0". -/
theorem c3_positive_amount_cex :
    (issue_coupon envA "f" "u" "s" (some 0) 5 "d" {}).1 = none ∧
    (issue_coupon envA "f" "u" "s" (some 0) 5 "d" {}).2.coupons
      = [{ user_id := "u", festival_id := "f", shop_name := "s", amount := 0,
           code := "HDFEST-0-5" }] := by
  decide

/-- C3 (amended): `issue_coupon` succeeds exactly when the supplied
amount (of any sign, positivity is not checked) is at most the summary's
totalActive and the budget reservation passes; on success it moves
exactly the amount from totalActive to totalConsumed and appends exactly
one ISSUED coupon whose redemption code is derived from the amount and
the nanosecond clock reading (not guaranteed globally unique). -/
theorem c3_issue_coupon_amended (env : Env) (fid uid shopName : String) (amt : Int)
    (nowNs : Nat) (today : String) (st : St) (fest : Festival)
    (hshop : shopName ≠ "") (hfest : getFestival env fid = some fest) :
    ((issue_coupon env fid uid shopName (some amt) nowNs today st).1 = none ↔
      amt ≤ (ensure_summary st uid fid today).1.total_active ∧
      get_budget_usage st fid + amt ≤ fest.budget) ∧
    ((issue_coupon env fid uid shopName (some amt) nowNs today st).1 = none →
      findSummary (issue_coupon env fid uid shopName (some amt) nowNs today st).2
          uid fid today
        = some { (ensure_summary st uid fid today).1 with
            total_active := (ensure_summary st uid fid today).1.total_active - amt,
            total_consumed := (ensure_summary st uid fid today).1.total_consumed + amt } ∧
      (issue_coupon env fid uid shopName (some amt) nowNs today st).2.coupons
        = st.coupons ++
          [{ user_id := uid, festival_id := fid, shop_name := shopName, amount := amt,
             code := couponCode amt nowNs }]) := by
  have h1 : (shopName == "") = false := by simp [hshop]
  have hfound := ensure_summary_found st uid fid today
  have hkey : summaryKey uid fid today (ensure_summary st uid fid today).1 = true := by
    have h := hfound
    unfold findSummary at h
    exact List.find?_some h
  simp only [issue_coupon, h1, Bool.false_eq_true, if_false, hfest, hfound]
  rw [get_budget_usage_ensure_summary st uid fid today fid]
  split
  · next hbal =>
    constructor
    · constructor
      · intro h; exact absurd h (by simp)
      · rintro ⟨ha, -⟩; omega
    · intro h; exact absurd h (by simp)
  next hbal =>
  split
  · next hbud =>
    constructor
    · constructor
      · intro h; exact absurd h (by simp)
      · rintro ⟨-, hb⟩; omega
    · intro h; exact absurd h (by simp)
  next hbud =>
  refine ⟨⟨fun _ => ⟨by omega, by omega⟩, fun _ => rfl⟩, fun _ => ⟨?_, ?_⟩⟩
  · unfold findSummary
    simp only []
    have hkey' : summaryKey uid fid today
        ({ (ensure_summary st uid fid today).1 with
            total_active := (ensure_summary st uid fid today).1.total_active - amt,
            total_consumed := (ensure_summary st uid fid today).1.total_consumed + amt })
        = true := by
      rcases summaryKey_eq hkey with ⟨ha, hb, hc⟩
      simp [summaryKey, ha, hb, hc]
    have := find?_updateFirst (l := (ensure_summary st uid fid today).2.summaries)
      (f := fun s => { s with total_active := s.total_active - amt,
                              total_consumed := s.total_consumed + amt })
      (by unfold findSummary at hfound; exact hfound) hkey'
    exact this
  · simp only []
    rw [ensure_summary_coupons]

/-- C3 witness: the amended success condition applied to the concrete
zero-amount issuance. -/
theorem c3_issue_coupon_witness :
    (issue_coupon envA "f" "u" "s" (some 0) 5 "d" {}).1 = none :=
  (c3_issue_coupon_amended envA "f" "u" "s" 0 5 "d" {} festA (by decide)
    (by decide)).1.mpr (by decide)

/-- Either `upload_photo` succeeds, or the only state change it can have
committed is the creation of a zero summary row by `ensure_summary`. -/
theorem upload_photo_failure_char (env : Env) (fid uid : String) (lat lng : Option ℚ)
    (ih : String) (now : Nat) (today wk : String) (st : St) :
    (upload_photo env fid uid lat lng ih now today wk st).1 = none ∨
    ((upload_photo env fid uid lat lng ih now today wk st).2.photos = st.photos ∧
     (upload_photo env fid uid lat lng ih now today wk st).2.pools = st.pools ∧
     (upload_photo env fid uid lat lng ih now today wk st).2.entries = st.entries ∧
     (upload_photo env fid uid lat lng ih now today wk st).2.coupons = st.coupons ∧
     ((upload_photo env fid uid lat lng ih now today wk st).2.summaries = st.summaries ∨
      (upload_photo env fid uid lat lng ih now today wk st).2.summaries
        = st.summaries ++ [zeroSummary uid fid today])) := by
  simp only [upload_photo]
  split
  · exact Or.inr ⟨rfl, rfl, rfl, rfl, Or.inl rfl⟩
  split
  · exact Or.inr ⟨rfl, rfl, rfl, rfl, Or.inl rfl⟩
  next fest hfest =>
  split
  · exact Or.inr ⟨rfl, rfl, rfl, rfl, Or.inl rfl⟩
  split
  · exact Or.inr ⟨rfl, rfl, rfl, rfl, Or.inl rfl⟩
  split
  · exact Or.inr ⟨rfl, rfl, rfl, rfl, Or.inl rfl⟩
  split
  · exact Or.inr ⟨ensure_summary_photos st uid fid today,
      ensure_summary_pools st uid fid today,
      ensure_summary_entries st uid fid today,
      ensure_summary_coupons st uid fid today,
      ensure_summary_summaries st uid fid today⟩
  split
  · exact Or.inr ⟨ensure_summary_photos st uid fid today,
      ensure_summary_pools st uid fid today,
      ensure_summary_entries st uid fid today,
      ensure_summary_coupons st uid fid today,
      ensure_summary_summaries st uid fid today⟩
  exact Or.inl rfl

/-- C6 counterexample: a failing cap gate does not leave the user's
daily summary rows unchanged.  Against the cap-0 festival the upload
fails with CapExceeded, yet the committed state contains a freshly
created summary row (the `ensure_summary` commit of main.py:114). -/
theorem c6_no_partial_commit_cex :
    (upload_photo envB "f" "u" none none "h" 0 "d" "w" {}).1 = some Err.capExceeded ∧
    (upload_photo envB "f" "u" none none "h" 0 "d" "w" {}).2.summaries
      ≠ ({} : St).summaries := by
  decide

/-- C6 (amended): whenever any gate of `upload_photo` fails, no
TrashPhoto row is created and the jackpot pool, the jackpot entries, the
coupons and every existing summary balance are left unchanged; the only
state change a failing run can commit is the creation of one zero-balance
summary row for (user, festival, today) when none existed (the cap and
budget gates run after `ensure_summary` has already committed it). -/
theorem c6_gate_failure_amended (env : Env) (fid uid : String) (lat lng : Option ℚ)
    (ih : String) (now : Nat) (today wk : String) (st : St) (e : Err)
    (hfail : (upload_photo env fid uid lat lng ih now today wk st).1 = some e) :
    (upload_photo env fid uid lat lng ih now today wk st).2.photos = st.photos ∧
    (upload_photo env fid uid lat lng ih now today wk st).2.pools = st.pools ∧
    (upload_photo env fid uid lat lng ih now today wk st).2.entries = st.entries ∧
    (upload_photo env fid uid lat lng ih now today wk st).2.coupons = st.coupons ∧
    ((upload_photo env fid uid lat lng ih now today wk st).2.summaries = st.summaries ∨
     (upload_photo env fid uid lat lng ih now today wk st).2.summaries
       = st.summaries ++ [zeroSummary uid fid today]) := by
  rcases upload_photo_failure_char env fid uid lat lng ih now today wk st with h | h
  · rw [hfail] at h; cases h
  · exact h

/-- C6 witness: the amended no-partial-commit property evaluated on the
concrete failing upload against the cap-0 festival. -/
theorem c6_gate_failure_witness :
    (upload_photo envB "f" "u" none none "h" 0 "d" "w" {}).2.photos = ({} : St).photos ∧
    (upload_photo envB "f" "u" none none "h" 0 "d" "w" {}).2.pools = ({} : St).pools ∧
    (upload_photo envB "f" "u" none none "h" 0 "d" "w" {}).2.entries = ({} : St).entries ∧
    (upload_photo envB "f" "u" none none "h" 0 "d" "w" {}).2.coupons = ({} : St).coupons ∧
    ((upload_photo envB "f" "u" none none "h" 0 "d" "w" {}).2.summaries
        = ({} : St).summaries ∨
     (upload_photo envB "f" "u" none none "h" 0 "d" "w" {}).2.summaries
        = ({} : St).summaries ++ [zeroSummary "u" "f" "d"]) :=
  c6_gate_failure_amended envB "f" "u" none none "h" 0 "d" "w" {} Err.capExceeded
    (by decide)


/-- The picked entry is one of the gathered entries. -/
theorem pickedEntry_mem {fid weekKey : String} {pick : Nat} {entries : List EntryR}
    (h : entries ≠ []) : pickedEntry fid weekKey pick entries ∈ entries := by
  have hlen : 0 < entries.length := List.length_pos.2 h
  have hlt : pick % entries.length < entries.length := Nat.mod_lt _ hlen
  unfold pickedEntry
  rw [List.getD_eq_getElem _ _ hlt]
  exact List.getElem_mem hlt

/-- C4: for a festival with a jackpot pool and at least one entry for
the current week key (whose users are all registered), `draw_jackpot`
succeeds and commits a state in which the pool is reset to its seed with
the winner and date recorded, the winner's current-day summary
totalActive has grown by exactly the pre-draw pool amount (the row being
created if absent), and exactly one JackpotWinner audit row recording
that amount has been appended. -/
theorem c4_draw_jackpot_commit (env : Env) (fid weekKey today : String) (pick : Nat)
    (st : St) (pool : Pool)
    (hpool : st.pools.find? (fun pl => pl.festival_id == fid) = some pool)
    (hne : weekEntries st fid weekKey ≠ [])
    (husers : ∀ e ∈ weekEntries st fid weekKey, env.users.contains e.user_id = true) :
    (draw_jackpot env fid weekKey today pick st).1 = none ∧
    (draw_jackpot env fid weekKey today pick st).2.pools.find?
        (fun pl => pl.festival_id == fid)
      = some { pool with
          current_amount := pool.seed_amount,
          last_winner_id :=
            some (pickedEntry fid weekKey pick (weekEntries st fid weekKey)).user_id,
          last_draw_date := some today } ∧
    (match findSummary st (pickedEntry fid weekKey pick (weekEntries st fid weekKey)).user_id
        fid today with
     | some s =>
        findSummary (draw_jackpot env fid weekKey today pick st).2
            (pickedEntry fid weekKey pick (weekEntries st fid weekKey)).user_id fid today
          = some { s with total_active := s.total_active + pool.current_amount }
     | none =>
        findSummary (draw_jackpot env fid weekKey today pick st).2
            (pickedEntry fid weekKey pick (weekEntries st fid weekKey)).user_id fid today
          = some { user_id := (pickedEntry fid weekKey pick
                     (weekEntries st fid weekKey)).user_id,
                   festival_id := fid, date := today,
                   total_active := pool.current_amount }) ∧
    (draw_jackpot env fid weekKey today pick st).2.winners
      = st.winners ++
        [{ user_id := (pickedEntry fid weekKey pick (weekEntries st fid weekKey)).user_id,
           festival_id := fid, week_key := weekKey, amount := pool.current_amount }] := by
  have hkeypool : (pool.festival_id == fid) = true := by
    have h := List.find?_some hpool
    simpa using h
  have hEmpty : (weekEntries st fid weekKey).isEmpty = false := by
    cases hE : weekEntries st fid weekKey
    · exact absurd hE hne
    · rfl
  have hc : env.users.contains
      (pickedEntry fid weekKey pick (weekEntries st fid weekKey)).user_id = true :=
    husers _ (pickedEntry_mem hne)
  simp only [draw_jackpot, hpool, hEmpty, hc, Bool.false_eq_true, if_false, not_true,
    Bool.not_eq_true]
  cases hsum : findSummary st
      (pickedEntry fid weekKey pick (weekEntries st fid weekKey)).user_id fid today with
  | some s =>
    have hkey : summaryKey
        (pickedEntry fid weekKey pick (weekEntries st fid weekKey)).user_id fid today s
        = true := by
      unfold findSummary at hsum
      exact List.find?_some hsum
    refine ⟨trivial, ?_, ?_, by simp only []⟩
    · refine find?_updateFirst hpool ?_
      simpa using hkeypool
    · unfold findSummary at hsum ⊢
      simp only []
      refine find?_updateFirst hsum ?_
      rcases summaryKey_eq hkey with ⟨ha, hb, hcc⟩
      simp [summaryKey, ha, hb, hcc]
  | none =>
    refine ⟨trivial, ?_, ?_, by simp only []⟩
    · refine find?_updateFirst hpool ?_
      simpa using hkeypool
    · unfold findSummary at hsum ⊢
      simp only []
      rw [find?_append_of_none hsum]
      simp [List.find?_cons, summaryKey]

/-- C4 witness: the draw evaluated on the concrete pool of 50 (seed 10)
with one entry: the pool resets to 10 and one audit row of amount 50 is
appended. -/
theorem c4_draw_jackpot_witness :
    (draw_jackpot envA "f" "w" "d" 0 stD).1 = none ∧
    (draw_jackpot envA "f" "w" "d" 0 stD).2.pools.find?
        (fun pl => pl.festival_id == "f")
      = some { festival_id := "f", current_amount := 10, seed_amount := 10,
               contribution_rate := 1, last_winner_id := some "u",
               last_draw_date := some "d" } ∧
    (draw_jackpot envA "f" "w" "d" 0 stD).2.winners
      = [{ user_id := "u", festival_id := "f", week_key := "w", amount := 50 }] := by
  have h := c4_draw_jackpot_commit envA "f" "w" "d" 0 stD
    { festival_id := "f", current_amount := 50, seed_amount := 10, contribution_rate := 1 }
    (by decide) (by decide) (by decide)
  refine ⟨h.1, ?_, ?_⟩
  · rw [h.2.1]; decide
  · rw [h.2.2.2]; decide


/-- Specification of the greedy activation loop: it returns the ids of
a prefix of the eligible list, the accumulated points of that prefix,
every intermediate accumulation stays within the cap, and the loop
stopped exactly at the first photo that would overflow. -/
theorem greedyActivate_spec (cap : Int) :
    ∀ (l : List Photo) (acc : Int), ∃ k, k ≤ l.length ∧
      (greedyActivate cap acc l).2 = (l.take k).map (fun p => p.id) ∧
      (greedyActivate cap acc l).1 = acc + ((l.take k).map (fun p => p.points)).sum ∧
      (∀ j, j ≤ k → 0 < j → acc + ((l.take j).map (fun p => p.points)).sum ≤ cap) ∧
      (∀ p, (l.drop k).head? = some p →
        cap < acc + ((l.take k).map (fun p => p.points)).sum + p.points) := by
  intro l
  induction l with
  | nil =>
    intro acc
    exact ⟨0, by simp, by simp [greedyActivate], by simp [greedyActivate],
      fun j hj h0 => by omega, by simp⟩
  | cons p rest ih =>
    intro acc
    by_cases hover : cap < acc + p.points
    · refine ⟨0, by simp, ?_, ?_, ?_, ?_⟩
      · simp [greedyActivate, hover]
      · simp [greedyActivate, hover]
      · intro j hj h0; omega
      · intro q hq
        simp only [List.drop_zero, List.head?_cons] at hq
        cases hq
        simpa using hover
    · rcases ih (acc + p.points) with ⟨k, hk, hids, hsum, hpre, hmax⟩
      refine ⟨k + 1, by simpa using hk, ?_, ?_, ?_, ?_⟩
      · simp only [greedyActivate, if_neg hover, List.take_succ_cons, List.map_cons]
        rw [hids]
      · simp only [greedyActivate, if_neg hover, List.take_succ_cons, List.map_cons,
          List.sum_cons]
        rw [hsum]; ring
      · intro j hj h0
        cases j with
        | zero => omega
        | succ j2 =>
          simp only [List.take_succ_cons, List.map_cons, List.sum_cons]
          rcases Nat.eq_zero_or_pos j2 with hz | hpos
          · subst hz; simpa using le_of_not_lt hover
          · have := hpre j2 (by omega) hpos
            omega
      · intro q hq
        simp only [List.drop_succ_cons] at hq
        have := hmax q hq
        simp only [List.take_succ_cons, List.map_cons, List.sum_cons]
        omega

/-- `ensure_summary` does not change the eligible-photo selection. -/
theorem eligiblePhotos_ensure (st : St) (uid fid date uid2 fid2 : String) (now : Nat) :
    eligiblePhotos (ensure_summary st uid fid date).2 uid2 fid2 now
      = eligiblePhotos st uid2 fid2 now := by
  unfold eligiblePhotos
  rw [ensure_summary_photos]

/-- Either `scan_bin` fails, or it commits exactly the greedy activation
batch: the batch photos flip to ACTIVE and the accumulated amount moves
from totalPending to totalActive on the ensured summary. -/
theorem scan_bin_char (env : Env) (fid uid binCode : String) (lat lng : Option ℚ)
    (now : Nat) (today : String) (st : St) :
    (scan_bin env fid uid binCode lat lng now today st).1 ≠ none ∨
    ∃ fest, getFestival env fid = some fest ∧
      (scan_bin env fid uid binCode lat lng now today st).1 = none ∧
      (greedyActivate (remaining_cap fest (ensure_summary st uid fid today).1) 0
          (eligiblePhotos st uid fid now)).2 ≠ [] ∧
      (scan_bin env fid uid binCode lat lng now today st).2.photos
        = st.photos.map (fun p =>
            if (greedyActivate (remaining_cap fest (ensure_summary st uid fid today).1) 0
                (eligiblePhotos st uid fid now)).2.contains p.id
            then { p with status := PhotoStatus.active } else p) ∧
      findSummary (scan_bin env fid uid binCode lat lng now today st).2 uid fid today
        = some { (ensure_summary st uid fid today).1 with
            total_pending := (ensure_summary st uid fid today).1.total_pending
              - (greedyActivate (remaining_cap fest (ensure_summary st uid fid today).1) 0
                  (eligiblePhotos st uid fid now)).1,
            total_active := (ensure_summary st uid fid today).1.total_active
              + (greedyActivate (remaining_cap fest (ensure_summary st uid fid today).1) 0
                  (eligiblePhotos st uid fid now)).1 } := by
  simp only [scan_bin]
  split
  · exact Or.inl (by simp)
  split
  · exact Or.inl (by simp)
  next fest hfest =>
  split
  · exact Or.inl (by simp)
  next binObj hbin =>
  split
  · exact Or.inl (by simp)
  split
  · exact Or.inl (by simp)
  split
  · exact Or.inl (by simp)
  split
  · exact Or.inl (by simp)
  split
  · exact Or.inl (by simp)
  split
  · exact Or.inl (by simp)
  next hids =>
  rw [eligiblePhotos_ensure] at hids ⊢
  refine Or.inr ⟨fest, hfest, rfl, ?_, ?_, ?_⟩
  · intro h
    rw [h] at hids
    exact hids rfl
  · rw [ensure_summary_photos]
  · have hfound := ensure_summary_found st uid fid today
    have hkey : summaryKey uid fid today (ensure_summary st uid fid today).1 = true := by
      have h := hfound
      unfold findSummary at h
      exact List.find?_some h
    unfold findSummary at hfound ⊢
    simp only []
    refine find?_updateFirst hfound ?_
    rcases summaryKey_eq hkey with ⟨ha, hb, hc⟩
    simp [summaryKey, ha, hb, hc]

/-- C5: a successful bin scan activates exactly the longest oldest-first
batch of the user's eligible PENDING photos (created within 30 minutes)
whose running totals stay within the remaining cap: the batch is a
prefix of the eligible list, every intermediate accumulation respects
the cap, the loop stops at the first photo that would overflow (it does
not skip it to pick smaller later photos), the accumulated amount moves
from totalPending to totalActive, and every eligible photo outside the
prefix stays PENDING (photo ids assumed unique, as the store allocates
them). -/
theorem c5_scan_bin_greedy (env : Env) (fid uid binCode : String) (lat lng : Option ℚ)
    (now : Nat) (today : String) (st : St) (fest : Festival)
    (hfest : getFestival env fid = some fest)
    (hsucc : (scan_bin env fid uid binCode lat lng now today st).1 = none)
    (hnodup : (st.photos.map (fun p => p.id)).Nodup) :
    ∃ k, k ≤ (eligiblePhotos st uid fid now).length ∧ 0 < k ∧
      (scan_bin env fid uid binCode lat lng now today st).2.photos
        = st.photos.map (fun p =>
            if (((eligiblePhotos st uid fid now).take k).map (fun q => q.id)).contains p.id
            then { p with status := PhotoStatus.active } else p) ∧
      (((eligiblePhotos st uid fid now).take k).map (fun p => p.points)).sum
        ≤ remaining_cap fest (ensure_summary st uid fid today).1 ∧
      (∀ j, j ≤ k → 0 < j →
        (((eligiblePhotos st uid fid now).take j).map (fun p => p.points)).sum
          ≤ remaining_cap fest (ensure_summary st uid fid today).1) ∧
      (∀ p, ((eligiblePhotos st uid fid now).drop k).head? = some p →
        remaining_cap fest (ensure_summary st uid fid today).1
          < (((eligiblePhotos st uid fid now).take k).map (fun q => q.points)).sum
            + p.points) ∧
      (∀ p ∈ (eligiblePhotos st uid fid now).drop k,
        p.status = PhotoStatus.pending ∧
        p ∈ (scan_bin env fid uid binCode lat lng now today st).2.photos) ∧
      findSummary (scan_bin env fid uid binCode lat lng now today st).2 uid fid today
        = some { (ensure_summary st uid fid today).1 with
            total_pending := (ensure_summary st uid fid today).1.total_pending
              - (((eligiblePhotos st uid fid now).take k).map (fun p => p.points)).sum,
            total_active := (ensure_summary st uid fid today).1.total_active
              + (((eligiblePhotos st uid fid now).take k).map (fun p => p.points)).sum } := by
  rcases scan_bin_char env fid uid binCode lat lng now today st with
    h | ⟨fest2, hfest2, hnone, hne, hphotos, hsum⟩
  · exact absurd hsucc h
  have hfe : fest2 = fest := by
    rw [hfest] at hfest2
    injection hfest2 with h
    exact h.symm
  subst hfe
  rcases greedyActivate_spec (remaining_cap fest2 (ensure_summary st uid fid today).1)
      (eligiblePhotos st uid fid now) 0 with ⟨k, hk, hids, hsum1, hpre, hmax⟩
  have hkpos : 0 < k := by
    rcases Nat.eq_zero_or_pos k with hz | hp
    · subst hz
      rw [List.take_zero, List.map_nil] at hids
      exact absurd hids hne
    · exact hp
  have helignodup : ((eligiblePhotos st uid fid now).map (fun p => p.id)).Nodup := by
    have hperm : List.Perm (eligiblePhotos st uid fid now) (st.photos.filter (fun p =>
        p.user_id == uid && p.festival_id == fid &&
        (p.status == PhotoStatus.pending) && decide (now - 1800 ≤ p.created_at))) :=
      List.perm_insertionSort _ _
    have hsub : (st.photos.filter (fun p =>
        p.user_id == uid && p.festival_id == fid &&
        (p.status == PhotoStatus.pending) && decide (now - 1800 ≤ p.created_at))).Sublist
        st.photos := List.filter_sublist _
    have h1 : ((st.photos.filter (fun p =>
        p.user_id == uid && p.festival_id == fid &&
        (p.status == PhotoStatus.pending) && decide (now - 1800 ≤ p.created_at))).map
        (fun p => p.id)).Nodup := (hsub.map (fun p => p.id)).nodup hnodup
    exact ((hperm.map (fun p => p.id)).nodup_iff).2 h1
  refine ⟨k, hk, hkpos, ?_, ?_, ?_, ?_, ?_, ?_⟩
  · rw [hphotos, hids]
  · have := hpre k le_rfl hkpos
    omega
  · intro j hj h0
    have := hpre j hj h0
    omega
  · intro p hp
    have := hmax p hp
    omega
  · intro p hp
    have hpelig : p ∈ eligiblePhotos st uid fid now := List.mem_of_mem_drop hp
    have hpfil : p ∈ st.photos.filter (fun p =>
        p.user_id == uid && p.festival_id == fid &&
        (p.status == PhotoStatus.pending) && decide (now - 1800 ≤ p.created_at)) :=
      (List.perm_insertionSort _ _).mem_iff.1 hpelig
    rcases List.mem_filter.1 hpfil with ⟨hpst, hcond⟩
    have hpend : p.status = PhotoStatus.pending := by
      simp only [Bool.and_eq_true, beq_iff_eq] at hcond
      exact hcond.1.2
    refine ⟨hpend, ?_⟩
    have hnotin : p.id ∉ ((eligiblePhotos st uid fid now).take k).map (fun q => q.id) := by
      intro hin
      have hin2 : p.id ∈ ((eligiblePhotos st uid fid now).drop k).map (fun q => q.id) :=
        List.mem_map_of_mem _ hp
      have htd := List.take_append_drop k (eligiblePhotos st uid fid now)
      have hnod2 : (((eligiblePhotos st uid fid now).take k).map (fun q => q.id) ++
          ((eligiblePhotos st uid fid now).drop k).map (fun q => q.id)).Nodup := by
        rw [← List.map_append, htd]
        exact helignodup
      rcases List.nodup_append.1 hnod2 with ⟨-, -, hdisj⟩
      exact hdisj hin hin2
    rw [hphotos, hids]
    refine List.mem_map.2 ⟨p, hpst, ?_⟩
    have hnotin2 : p.id ∉ List.take k ((eligiblePhotos st uid fid now).map (fun q => q.id)) := by
      rw [← List.map_take]
      exact hnotin
    simp [hnotin2]
  · rw [hsum1] at hsum
    simpa using hsum

/-- C5 witness: the greedy prefix property evaluated on the concrete
scan of two 6-point photos under remaining cap 10 (only the older photo
activates). -/
theorem c5_scan_bin_witness :
    ∃ k, k ≤ (eligiblePhotos stC "u" "f" 300).length ∧ 0 < k ∧
      (scan_bin envC "f" "u" "B" none none 300 "d" stC).2.photos
        = stC.photos.map (fun p =>
            if (((eligiblePhotos stC "u" "f" 300).take k).map (fun q => q.id)).contains p.id
            then { p with status := PhotoStatus.active } else p) ∧
      (((eligiblePhotos stC "u" "f" 300).take k).map (fun p => p.points)).sum
        ≤ remaining_cap festC (ensure_summary stC "u" "f" "d").1 ∧
      (∀ j, j ≤ k → 0 < j →
        (((eligiblePhotos stC "u" "f" 300).take j).map (fun p => p.points)).sum
          ≤ remaining_cap festC (ensure_summary stC "u" "f" "d").1) ∧
      (∀ p, ((eligiblePhotos stC "u" "f" 300).drop k).head? = some p →
        remaining_cap festC (ensure_summary stC "u" "f" "d").1
          < (((eligiblePhotos stC "u" "f" 300).take k).map (fun q => q.points)).sum
            + p.points) ∧
      (∀ p ∈ (eligiblePhotos stC "u" "f" 300).drop k,
        p.status = PhotoStatus.pending ∧
        p ∈ (scan_bin envC "f" "u" "B" none none 300 "d" stC).2.photos) ∧
      findSummary (scan_bin envC "f" "u" "B" none none 300 "d" stC).2 "u" "f" "d"
        = some { (ensure_summary stC "u" "f" "d").1 with
            total_pending := (ensure_summary stC "u" "f" "d").1.total_pending
              - (((eligiblePhotos stC "u" "f" 300).take k).map (fun p => p.points)).sum,
            total_active := (ensure_summary stC "u" "f" "d").1.total_active
              + (((eligiblePhotos stC "u" "f" 300).take k).map (fun p => p.points)).sum } :=
  c5_scan_bin_greedy envC "f" "u" "B" none none 300 "d" stC festC
    (by decide) (by decide) (by decide)


/-- When at least one side does not parse into the structured form, the
comparison falls back to the raw character-wise distance. -/
theorem dedupDistance_fallback (stored new : String)
    (h : parse_hash stored = none ∨ parse_hash new = none) :
    dedupDistance stored new = some (hamming_distance stored new) := by
  rcases h with h | h
  · cases hn : parse_hash new <;> simp [dedupDistance, h, hn]
  · cases hs : parse_hash stored <;> simp [dedupDistance, h, hs]

/-- A scan over stored hashes whose distances are all defined and at
least 6 passes. -/
theorem dedupScan_pass (new : String) :
    ∀ hs : List String, (∀ h ∈ hs, ∃ d, dedupDistance h new = some d ∧ 6 ≤ d) →
      dedupScan new hs = none := by
  intro hs
  induction hs with
  | nil => intro _; rfl
  | cons h rest ih =>
    intro hall
    rcases hall h (by simp) with ⟨d, hd, h6⟩
    simp only [dedupScan, hd]
    rw [if_neg (by omega)]
    exact ih (fun x hx => hall x (by simp [hx]))

/-- A scan over stored hashes whose distances are all defined rejects
with DuplicateImage as soon as one distance is at most 5. -/
theorem dedupScan_reject (new : String) :
    ∀ hs : List String, (∀ h ∈ hs, dedupDistance h new ≠ none) →
      (∃ h ∈ hs, ∃ d, dedupDistance h new = some d ∧ d ≤ 5) →
      dedupScan new hs = some Err.duplicateImage := by
  intro hs
  induction hs with
  | nil => rintro _ ⟨h, hmem, -⟩; simp at hmem
  | cons h rest ih =>
    rintro hdef ⟨h2, hmem, d2, hd2, hle2⟩
    cases hd : dedupDistance h new with
    | none => exact absurd hd (hdef h (by simp))
    | some d =>
      simp only [dedupScan, hd]
      by_cases h5 : d ≤ 5
      · rw [if_pos h5]
      · rw [if_neg h5]
        rcases List.mem_cons.1 hmem with rfl | hmem2
        · rw [hd2] at hd
          injection hd with he
          omega
        · exact ih (fun x hx => hdef x (by simp [hx])) ⟨h2, hmem2, d2, hd2, hle2⟩

/-- Past the identity, geofence and rate gates, `upload_photo` rejects
with DuplicateImage exactly when the dedup scan over the 20 most recent
stored hashes does. -/
theorem upload_photo_dedup_iff (env : Env) (fid uid : String) (lat lng : Option ℚ)
    (ihash : String) (now : Nat) (today wk : String) (st : St) (fest : Festival)
    (hu : env.users.contains uid = true)
    (hfest : getFestival env fid = some fest)
    (hgeo : is_inside_festival env.dist fest lat lng = true)
    (hrate : rateCount st uid now < 5) :
    (upload_photo env fid uid lat lng ihash now today wk st).1 = some Err.duplicateImage
      ↔ dedupScan ihash (recentHashes st uid) = some Err.duplicateImage := by
  simp only [upload_photo, hu, hfest, hgeo, not_true, Bool.not_eq_true]
  rw [if_neg not_false, if_neg not_false, if_neg (by omega)]
  cases hds : dedupScan ihash (recentHashes st uid) with
  | some e => exact Iff.rfl
  | none =>
    simp only []
    constructor
    · intro h
      split at h
      · exact absurd h (by simp)
      · split at h
        · exact absurd h (by simp)
        · exact absurd h (by simp)
    · intro h; cases h

/-- C7: the dedup comparison of `upload_photo` over the stored hashes of
the 20 most recent prior submissions uses the structured bit distance
when both hashes parse (sizes equal), falls back to the raw
character-wise distance otherwise, rejects with DuplicateImage exactly
at distance at most 5 (6 passes), and treats hash strings of unequal
length as maximally distant in the fallback, never matching them when
the computed hash has at least 6 characters. -/
theorem c7_dedup_comparison :
    (∀ stored new a b, parse_hash stored = some a → parse_hash new = some b →
        a.length = b.length →
        dedupDistance stored new
          = some (((a.zip b).filter (fun c => c.1 ≠ c.2)).length)) ∧
    (∀ stored new, parse_hash stored = none ∨ parse_hash new = none →
        dedupDistance stored new = some (hamming_distance stored new)) ∧
    (∀ new hs, (∀ h ∈ hs, ∃ d, dedupDistance h new = some d ∧ 6 ≤ d) →
        dedupScan new hs = none) ∧
    (∀ new hs, (∀ h ∈ hs, dedupDistance h new ≠ none) →
        (∃ h ∈ hs, ∃ d, dedupDistance h new = some d ∧ d ≤ 5) →
        dedupScan new hs = some Err.duplicateImage) ∧
    (∀ stored new, stored.length ≠ new.length →
        (parse_hash stored = none ∨ parse_hash new = none) →
        dedupDistance stored new = some (max stored.length new.length) ∧
        (6 ≤ new.length → ∀ d, dedupDistance stored new = some d → 5 < d)) ∧
    (∀ env fid uid lat lng ihash now today wk st fest,
        env.users.contains uid = true →
        getFestival env fid = some fest →
        is_inside_festival env.dist fest lat lng = true →
        rateCount st uid now < 5 →
        ((upload_photo env fid uid lat lng ihash now today wk st).1
            = some Err.duplicateImage
          ↔ dedupScan ihash (recentHashes st uid) = some Err.duplicateImage)) := by
  refine ⟨?_, fun s n h => dedupDistance_fallback s n h, dedupScan_pass, dedupScan_reject,
    ?_, ?_⟩
  · intro stored new a b ha hb hlen
    simp [dedupDistance, ha, hb, hashSub, hlen]
  · intro stored new hlen hnp
    have hfb := dedupDistance_fallback stored new hnp
    have hham : hamming_distance stored new = max stored.length new.length := by
      simp [hamming_distance, hlen]
    refine ⟨by rw [hfb, hham], ?_⟩
    intro h6 d hd
    rw [hfb, hham] at hd
    injection hd with he
    have : new.length ≤ max stored.length new.length := le_max_right _ _
    omega
  · intro env fid uid lat lng ihash now today wk st fest hu hfest hgeo hrate
    exact upload_photo_dedup_iff env fid uid lat lng ihash now today wk st fest
      hu hfest hgeo hrate

/-- C7 witness: the fallback comparison and the threshold evaluated on
concrete hashes (the unparseable "zz" against a computed 16-character
hash, and a structured distance of exactly 6 passing the scan). -/
theorem c7_dedup_witness :
    dedupDistance "zz" "ffff00000000ffff"
      = some (hamming_distance "zz" "ffff00000000ffff") ∧
    dedupScan "ffff00000000ffff" ["ffc000000000ffff"] = none :=
  ⟨c7_dedup_comparison.2.1 "zz" "ffff00000000ffff" (Or.inl (by decide)),
   c7_dedup_comparison.2.2.1 "ffff00000000ffff" ["ffc000000000ffff"]
     (fun h hh => by
       simp only [List.mem_singleton] at hh
       subst hh
       exact ⟨6, by decide, by decide⟩)⟩


/-- `ensure_summary` does not change the pool the contribution lands in. -/
theorem poolPre_ensure (env : Env) (st : St) (uid fid date fid2 : String) :
    poolPre env (ensure_summary st uid fid date).2 fid2 = poolPre env st fid2 := by
  unfold poolPre
  rw [ensure_summary_pools]

/-- Either `upload_photo` fails, or the festival's pool (the existing
row, or the freshly created default row) gains exactly
`int(per_photo_point * contribution_rate)`. -/
theorem upload_photo_pools_char (env : Env) (fid uid : String) (lat lng : Option ℚ)
    (ihash : String) (now : Nat) (today wk : String) (st : St) (fest : Festival)
    (hfest : getFestival env fid = some fest) :
    (upload_photo env fid uid lat lng ihash now today wk st).1 ≠ none ∨
    (upload_photo env fid uid lat lng ihash now today wk st).2.pools.find?
        (fun pl => pl.festival_id == fid)
      = some { poolPre env st fid with
          current_amount := (poolPre env st fid).current_amount
            + pyInt ((fest.per_photo_point : ℚ)
                * (poolPre env st fid).contribution_rate) } := by
  cases hfind : st.pools.find? (fun q => q.festival_id == fid) with
  | some pl =>
    have hpred : (pl.festival_id == fid) = true := by
      have h := List.find?_some hfind
      simpa using h
    have hpp : poolPre env st fid = pl := by
      unfold poolPre
      rw [hfind]
      rfl
    rw [hpp]
    simp only [upload_photo, hfest, poolPre, ensure_summary_pools, hfind, Option.getD_some]
    split
    · exact Or.inl (by simp)
    split
    · exact Or.inl (by simp)
    split
    · exact Or.inl (by simp)
    split
    · exact Or.inl (by simp)
    split
    · exact Or.inl (by simp)
    split
    · exact Or.inl (by simp)
    right
    split <;>
    · simp only []
      refine find?_updateFirst hfind ?_
      simpa using hpred
  | none =>
    have hpp : poolPre env st fid = newPool env fid := by
      unfold poolPre
      rw [hfind]
      rfl
    rw [hpp]
    simp only [upload_photo, hfest, poolPre, ensure_summary_pools, hfind, Option.getD_none]
    split
    · exact Or.inl (by simp)
    split
    · exact Or.inl (by simp)
    split
    · exact Or.inl (by simp)
    split
    · exact Or.inl (by simp)
    split
    · exact Or.inl (by simp)
    split
    · exact Or.inl (by simp)
    right
    split <;>
    · simp only []
      rw [updateFirst_append_of_none hfind, find?_append_of_none hfind]
      have hprednew : ((newPool env fid).festival_id == fid) = true := by
        simp [newPool]
      simp [updateFirst, List.find?_cons, hprednew]

/-- A pre-existing pool whose contribution will be added (rate 1,
balance 7) for the C8 witness. -/
def stE : St :=
  { pools := [{ festival_id := "f", current_amount := 7, seed_amount := 3,
                contribution_rate := 1 }] }

/-- C8: every accepted photo submission adds exactly
`floor(pointsJustIssued * contributionRate)` to the festival pool, and
under the configured non-negative rate and reward the added amount is
never negative (Python `int()` truncation coincides with `floor` for
non-negative products). -/
theorem c8_jackpot_contribution (env : Env) (fid uid : String) (lat lng : Option ℚ)
    (ihash : String) (now : Nat) (today wk : String) (st : St) (fest : Festival)
    (hfest : getFestival env fid = some fest)
    (hsucc : (upload_photo env fid uid lat lng ihash now today wk st).1 = none)
    (hrate : 0 ≤ (poolPre env st fid).contribution_rate)
    (hpts : 0 ≤ fest.per_photo_point) :
    (upload_photo env fid uid lat lng ihash now today wk st).2.pools.find?
        (fun pl => pl.festival_id == fid)
      = some { poolPre env st fid with
          current_amount := (poolPre env st fid).current_amount
            + ⌊(fest.per_photo_point : ℚ) * (poolPre env st fid).contribution_rate⌋ } ∧
    0 ≤ ⌊(fest.per_photo_point : ℚ) * (poolPre env st fid).contribution_rate⌋ := by
  have hq : (0:ℚ) ≤ (fest.per_photo_point : ℚ) * (poolPre env st fid).contribution_rate :=
    mul_nonneg (by exact_mod_cast hpts) hrate
  have hfl : 0 ≤ ⌊(fest.per_photo_point : ℚ) * (poolPre env st fid).contribution_rate⌋ :=
    Int.le_floor.2 (by simpa using hq)
  have hpy : pyInt ((fest.per_photo_point : ℚ) * (poolPre env st fid).contribution_rate)
      = ⌊(fest.per_photo_point : ℚ) * (poolPre env st fid).contribution_rate⌋ := by
    unfold pyInt
    rw [if_pos hq]
  rcases upload_photo_pools_char env fid uid lat lng ihash now today wk st fest hfest with
    h | h
  · exact absurd hsucc h
  · refine ⟨?_, hfl⟩
    rw [h, hpy]

/-- C8 witness: an accepted 6-point submission against the rate-1 pool
of balance 7. -/
theorem c8_jackpot_contribution_witness :
    (upload_photo envC "f" "u" none none "abcd" 5000 "d" "w" stE).2.pools.find?
        (fun pl => pl.festival_id == "f")
      = some { poolPre envC stE "f" with
          current_amount := (poolPre envC stE "f").current_amount
            + ⌊(festC.per_photo_point : ℚ) * (poolPre envC stE "f").contribution_rate⌋ } ∧
    0 ≤ ⌊(festC.per_photo_point : ℚ) * (poolPre envC stE "f").contribution_rate⌋ :=
  c8_jackpot_contribution envC "f" "u" none none "abcd" 5000 "d" "w" stE festC
    (by decide) (by decide) (by decide) (by decide)

/-- C9: the lazily primed pool (spec-modelled `ensure_jackpot_pool`,
absent from src and referenced by the repository's tests) seeded at
10,000 with priming target 100,000 and start-percent 0.78 primes
`current_amount` to 78,000 on first reference, and a second reference
with no intervening contribution returns 78,000 and changes nothing. -/
theorem c9_pool_priming :
    (ensure_jackpot_pool 10000 100000 (78/100) 1 "f" {}).1.current_amount = 78000 ∧
    (ensure_jackpot_pool 10000 100000 (78/100) 1 "f"
        (ensure_jackpot_pool 10000 100000 (78/100) 1 "f" {}).2).1.current_amount
      = 78000 ∧
    (ensure_jackpot_pool 10000 100000 (78/100) 1 "f"
        (ensure_jackpot_pool 10000 100000 (78/100) 1 "f" {}).2).2
      = (ensure_jackpot_pool 10000 100000 (78/100) 1 "f" {}).2 := by
  have hq : pyInt ((100000 : ℚ) * (78/100)) = 78000 := by
    norm_num [pyInt]
  have hmax : max (10000 : Int) 78000 = 78000 := max_eq_right (by norm_num)
  have h1 : ensure_jackpot_pool 10000 100000 (78/100) 1 "f" ({} : St)
      = ({ festival_id := "f", current_amount := 78000, seed_amount := 10000,
           contribution_rate := 1 },
         { pools := [{ festival_id := "f", current_amount := 78000,
                       seed_amount := 10000, contribution_rate := 1 }] }) := by
    simp [ensure_jackpot_pool, hq, hmax]
  rw [h1]
  refine ⟨rfl, ?_, ?_⟩ <;> simp [ensure_jackpot_pool]

/-- A festival with a configured center and no configured radius, for
the C10 witness. -/
def festG : Festival :=
  { id := "g", budget := 0, per_user_daily_cap := 0, per_photo_point := 0,
    center_lat := some 0, center_lng := some 0 }

/-- C10: with a declared center and a null (or zero) radius the
geofence gate compares the great-circle distance against the 1500 meter
default; without a configured center it passes regardless of the
supplied coordinates; and both `upload_photo` and `scan_bin` reject
with OutsideGeofence exactly through this gate. -/
theorem c10_geofence_default :
    (∀ (dist : ℚ → ℚ → ℚ → ℚ → ℚ) (f : Festival) (clat clng la ln : ℚ),
        f.center_lat = some clat → f.center_lng = some clng →
        (f.radius_meters = none ∨ f.radius_meters = some 0) →
        is_inside_festival dist f (some la) (some ln)
          = decide (dist la ln clat clng ≤ (1500 : ℚ))) ∧
    (∀ (dist : ℚ → ℚ → ℚ → ℚ → ℚ) (f : Festival) (lat lng : Option ℚ),
        (f.center_lat = none ∨ f.center_lng = none) →
        is_inside_festival dist f lat lng = true) ∧
    (∀ (env : Env) (fid uid : String) (lat lng : Option ℚ) (ihash : String)
        (now : Nat) (today wk : String) (st : St) (fest : Festival),
        env.users.contains uid = true →
        getFestival env fid = some fest →
        is_inside_festival env.dist fest lat lng = false →
        (upload_photo env fid uid lat lng ihash now today wk st).1
          = some Err.outsideGeofence) ∧
    (∀ (env : Env) (fid uid binCode : String) (lat lng : Option ℚ)
        (now : Nat) (today : String) (st : St) (fest : Festival) (binObj : TrashBinR),
        binCode ≠ "" →
        getFestival env fid = some fest →
        env.bins.find? (fun b => b.festival_id == fid && b.code == binCode)
          = some binObj →
        env.users.contains uid = true →
        is_inside_festival env.dist fest lat lng = false →
        (scan_bin env fid uid binCode lat lng now today st).1
          = some Err.outsideGeofence) := by
  refine ⟨?_, ?_, ?_, ?_⟩
  · intro dist f clat clng la ln hla hlng hr
    rcases hr with hr | hr <;>
      simp [is_inside_festival, hla, hlng, effectiveRadius, hr]
  · intro dist f lat lng h
    rcases h with h | h
    · simp [is_inside_festival, h]
    · cases hc : f.center_lat <;> simp [is_inside_festival, h, hc]
  · intro env fid uid lat lng ihash now today wk st fest hu hfest hgeo
    have hu2 : uid ∈ env.users := by simpa using hu
    simp [upload_photo, hu2, hfest, hgeo]
  · intro env fid uid binCode lat lng now today st fest binObj hbc hfest hbin hu hgeo
    have hbc2 : (binCode == "") = false := by simp [hbc]
    have hu2 : uid ∈ env.users := by simpa using hu
    simp [scan_bin, hbc2, hfest, hbin, hu2, hgeo]

/-- C10 witness: a festival with a center and no radius uses the 1500
meter default against the supplied distance. -/
theorem c10_geofence_witness :
    is_inside_festival (fun _ _ _ _ => (7:ℚ)) festG (some 0) (some 0)
      = decide ((7:ℚ) ≤ (1500 : ℚ)) :=
  c10_geofence_default.1 (fun _ _ _ _ => (7:ℚ)) festG 0 0 0 0 rfl rfl (Or.inl rfl)

end CashUp
